import Mathlib

/-!
Shallow embedding of the simplefs on-disk format and algorithms.

The repository ships a single header, src/simplefs.h, declaring the on-disk
record types (superblock, inode, extent, extent-index block, directory entry,
directory block) and the constants derived from their C sizes.  The byte
layout of those records is modelled here by a small C-struct layout
calculator (field sizes, alignments, offsets, sizeof with trailing padding),
and each struct of the header is transcribed as its field list.  The
algorithmic functions (`simplefs_ext_search`, `simplefs_fill_super`, extent
growth, block allocation) are only declared in the header; their behaviour is
modelled from the specification and marked as such on each definition.
-/

/-- A C struct field: declared name, size in bytes, alignment in bytes. -/
structure CField where
  name : String
  size : Nat
  align : Nat
deriving DecidableEq

/-- Round `off` up to the next multiple of `a` (C alignment rule). -/
def alignTo (off a : Nat) : Nat :=
  if a = 0 then off else ((off + a - 1) / a) * a

/-- Offset just past the last field of a struct, before trailing padding. -/
def structEnd (fs : List CField) : Nat :=
  fs.foldl (fun off f => alignTo off f.align + f.size) 0

/-- Alignment of a struct: the maximum alignment of its fields. -/
def structAlign (fs : List CField) : Nat :=
  fs.foldl (fun a f => max a f.align) 1

/-- `sizeof` of a C struct: end offset rounded up to the struct alignment. -/
def sizeofStruct (fs : List CField) : Nat :=
  alignTo (structEnd fs) (structAlign fs)

/-- Byte offsets of the fields of a struct, in declaration order. -/
def structOffsets (fs : List CField) : List Nat :=
  (fs.foldl (fun (acc : List Nat × Nat) f =>
    let o := alignTo acc.2 f.align
    (acc.1 ++ [o], o + f.size)) ([], 0)).1

/-- A `uint32_t` field (size 4, alignment 4). -/
def u32 (n : String) : CField := ⟨n, 4, 4⟩

/-- A `char[len]` field (alignment 1). -/
def charArr (n : String) (len : Nat) : CField := ⟨n, len, 1⟩

/-- A pointer field on a 64-bit host (size 8, alignment 8). -/
def ptrField (n : String) : CField := ⟨n, 8, 8⟩

/-- `SIMPLEFS_MAGIC` (simplefs.h line 6).  The C literal is `0xDEADCELL`:
hex digits `DEADCE` followed by the `LL` integer suffix, so its value is
`0xDEADCE`. -/
def SIMPLEFS_MAGIC : Nat := 0xDEADCE

/-- `SIMPLEFS_SB_BLOCK_NR` (simplefs.h line 9): the superblock block number. -/
def SIMPLEFS_SB_BLOCK_NR : Nat := 0

/-- `SIMPLEFS_BLOCK_SIZE` (simplefs.h line 12): `1 << 12` = 4 KiB. -/
def SIMPLEFS_BLOCK_SIZE : Nat := 1 <<< 12

/-- `struct simplefs_extent` (simplefs.h lines 91-96): four `uint32_t`
fields `ee_block`, `ee_len`, `ee_start`, `nr_files`. -/
def simplefs_extent_fields : List CField :=
  [u32 "ee_block", u32 "ee_len", u32 "ee_start", u32 "nr_files"]

/-- `sizeof(struct simplefs_extent)`. -/
def sizeof_simplefs_extent : Nat := sizeofStruct simplefs_extent_fields

/-- `SIMPLEFS_MAX_EXTENTS` (simplefs.h lines 13-14):
`(SIMPLEFS_BLOCK_SIZE - sizeof(uint32_t)) / sizeof(struct simplefs_extent)`. -/
def SIMPLEFS_MAX_EXTENTS : Nat :=
  (SIMPLEFS_BLOCK_SIZE - 4) / sizeof_simplefs_extent

/-- `SIMPLEFS_MAX_BLOCKS_PER_EXTENT` (simplefs.h line 15). -/
def SIMPLEFS_MAX_BLOCKS_PER_EXTENT : Nat := 8

/-- `SIMPLEFS_MAX_SIZES_PER_EXTENT` (simplefs.h lines 16-17). -/
def SIMPLEFS_MAX_SIZES_PER_EXTENT : Nat :=
  SIMPLEFS_MAX_BLOCKS_PER_EXTENT * SIMPLEFS_BLOCK_SIZE

/-- `SIMPLEFS_MAX_FILESIZE` (simplefs.h lines 18-20). -/
def SIMPLEFS_MAX_FILESIZE : Nat :=
  SIMPLEFS_MAX_BLOCKS_PER_EXTENT * SIMPLEFS_BLOCK_SIZE * SIMPLEFS_MAX_EXTENTS

/-- `SIMPLEFS_FILENAME_LEN` (simplefs.h line 22). -/
def SIMPLEFS_FILENAME_LEN : Nat := 255

/-- `struct simplefs_inode` (simplefs.h lines 53-65): ten `uint32_t` fields
followed by `char i_data[32]`. -/
def simplefs_inode_fields : List CField :=
  [u32 "i_mode", u32 "i_uid", u32 "i_gid", u32 "i_size", u32 "i_ctime",
   u32 "i_atime", u32 "i_mtime", u32 "i_blocks", u32 "i_nlink", u32 "ei_block",
   charArr "i_data" 32]

/-- `sizeof(struct simplefs_inode)`. -/
def sizeof_simplefs_inode : Nat := sizeofStruct simplefs_inode_fields

/-- `SIMPLEFS_INODES_PER_BLOCK` (simplefs.h lines 67-68). -/
def SIMPLEFS_INODES_PER_BLOCK : Nat :=
  SIMPLEFS_BLOCK_SIZE / sizeof_simplefs_inode

/-- `struct simplefs_file` (simplefs.h lines 111-115): a directory entry,
`uint32_t inode`, `uint32_t nr_blk`, `char filename[SIMPLEFS_FILENAME_LEN]`.
The struct carries no packing attribute, so C layout applies. -/
def simplefs_file_fields : List CField :=
  [u32 "inode", u32 "nr_blk", charArr "filename" SIMPLEFS_FILENAME_LEN]

/-- `sizeof(struct simplefs_file)`. -/
def sizeof_simplefs_file : Nat := sizeofStruct simplefs_file_fields

/-- `SIMPLEFS_FILES_PER_BLOCK` (simplefs.h lines 24-25). -/
def SIMPLEFS_FILES_PER_BLOCK : Nat :=
  SIMPLEFS_BLOCK_SIZE / sizeof_simplefs_file

/-- `SIMPLEFS_FILES_PER_EXT` (simplefs.h lines 26-27). -/
def SIMPLEFS_FILES_PER_EXT : Nat :=
  SIMPLEFS_FILES_PER_BLOCK * SIMPLEFS_MAX_BLOCKS_PER_EXTENT

/-- `SIMPLEFS_MAX_SUBFILES` (simplefs.h line 29). -/
def SIMPLEFS_MAX_SUBFILES : Nat :=
  SIMPLEFS_FILES_PER_EXT * SIMPLEFS_MAX_EXTENTS

/-- `struct simplefs_file_ei_block` (simplefs.h lines 102-105):
`uint32_t nr_files` followed by `struct simplefs_extent extents[SIMPLEFS_MAX_EXTENTS]`. -/
def simplefs_file_ei_block_fields : List CField :=
  [u32 "nr_files",
   ⟨"extents", SIMPLEFS_MAX_EXTENTS * sizeof_simplefs_extent, 4⟩]

/-- `struct simplefs_dir_block` (simplefs.h lines 120-123):
`uint32_t nr_files` followed by `struct simplefs_file files[SIMPLEFS_FILES_PER_BLOCK]`. -/
def simplefs_dir_block_fields : List CField :=
  [u32 "nr_files",
   ⟨"files", SIMPLEFS_FILES_PER_BLOCK * sizeof_simplefs_file, 4⟩]

/-- `struct simplefs_sb_info` (simplefs.h lines 161-186), without the
kernel-only journal members that are conditionally compiled under
`__KERNEL__`: eight `uint32_t` fields and the two in-memory bitmap
pointers `ifree_bitmap`, `bfree_bitmap`. -/
def simplefs_sb_info_fields : List CField :=
  [u32 "magic", u32 "nr_blocks", u32 "nr_inodes", u32 "nr_istore_blocks",
   u32 "nr_ifree_blocks", u32 "nr_bfree_blocks", u32 "nr_free_inodes",
   u32 "nr_free_blocks", ptrField "ifree_bitmap", ptrField "bfree_bitmap"]

/-- The superblock field list as the spec words it (section 3): magic number,
total block/inode counts, counts of inode-store/ifree-bitmap/bfree-bitmap
blocks, free-inode and free-block counters — and nothing else. -/
def spec_superblock_field_names : List String :=
  ["magic", "nr_blocks", "nr_inodes", "nr_istore_blocks", "nr_ifree_blocks",
   "nr_bfree_blocks", "nr_free_inodes", "nr_free_blocks"]

/-- A `struct simplefs_extent` value: a contiguous range of
`ee_len` physical blocks starting at `ee_start`, covering logical blocks
`ee_block .. ee_block + ee_len - 1` (simplefs.h lines 91-96). -/
structure simplefs_extent where
  ee_block : Nat
  ee_len : Nat
  ee_start : Nat
  nr_files : Nat
deriving DecidableEq

/-- Extent `e` covers logical block `iblock`:
`iblock` lies in `[ee_block, ee_block + ee_len)`. -/
def covers (e : simplefs_extent) (iblock : Nat) : Prop :=
  e.ee_block ≤ iblock ∧ iblock < e.ee_block + e.ee_len

/-- Well-formed extent index: sorted by logical start and non-overlapping
(spec section 3: "within one index, extents are sorted by logical start,
non-overlapping"). -/
def wellFormed : List simplefs_extent → Prop
  | [] => True
  | [_] => True
  | a :: b :: rest => a.ee_block + a.ee_len ≤ b.ee_block ∧ wellFormed (b :: rest)

/-- Modelled from the spec: `simplefs_ext_search` is only declared in
src/simplefs.h (line 146); its defining source file is not in the repository.
Spec section 4.4: scan the extent array in order; for the first extent where
the logical block falls within `[ee_block, ee_block + ee_len)`, return
`ee_start + (logical_block - ee_block)`; otherwise NotFound (`none`). -/
def simplefs_ext_search : List simplefs_extent → Nat → Option Nat
  | [], _ => none
  | e :: rest, iblock =>
    if e.ee_block ≤ iblock ∧ iblock < e.ee_block + e.ee_len then
      some (e.ee_start + (iblock - e.ee_block))
    else
      simplefs_ext_search rest iblock

/-- Whether blocks `s .. s + n - 1` are all free in the bitmap
(`true` bit = free; positions past the end count as not free). -/
def runFree (bm : List Bool) (s n : Nat) : Bool :=
  (List.range n).all fun i => bm.getD (s + i) false

/-- Mark blocks `s .. s + n - 1` as used in the bitmap. -/
def clearRun (bm : List Bool) (s n : Nat) : List Bool :=
  (List.range bm.length).map fun i =>
    if s ≤ i ∧ i < s + n then false else bm.getD i false

/-- Modelled from the spec: the Bitmap Allocator's `allocate_blocks`
(spec section 4.1) is not in the repository.  First-fit scan for `n`
contiguous free bits; on success returns the start and the updated bitmap,
otherwise NoSpace (`none`). -/
def allocate_blocks (bm : List Bool) (n : Nat) : Option (Nat × List Bool) :=
  match (List.range bm.length).find? (fun s => runFree bm s n) with
  | none => none
  | some s => some (s, clearRun bm s n)

/-- Modelled from the spec: extent growth requests "up to 8 contiguous blocks
from the Bitmap Allocator (fewer if that is all that is free contiguously)"
(spec section 4.4); try `n`, then `n - 1`, ..., then 1. -/
def allocUpTo (bm : List Bool) : Nat → Option (Nat × Nat × List Bool)
  | 0 => none
  | n + 1 =>
    match allocate_blocks bm (n + 1) with
    | some r => some (r.1, n + 1, r.2)
    | none => allocUpTo bm n

/-- Errors of extent growth (spec sections 4.4 and 7). -/
inductive GrowError where
  | FileTooLarge
  | NoSpace
deriving DecidableEq

/-- Modelled from the spec: the extent `grow` operation (spec section 4.4) is
not in the repository.  If the new logical block already falls within an
existing extent, return its physical block (idempotent).  Otherwise fail with
FileTooLarge when the index is at capacity, else allocate up to
`SIMPLEFS_MAX_BLOCKS_PER_EXTENT` contiguous blocks and append a new extent
with the allocated length and start. -/
def simplefs_ext_grow (index : List simplefs_extent) (bm : List Bool)
    (new_logical : Nat) :
    Except GrowError (List simplefs_extent × List Bool × Nat) :=
  match simplefs_ext_search index new_logical with
  | some p => .ok (index, bm, p)
  | none =>
    if SIMPLEFS_MAX_EXTENTS ≤ index.length then .error .FileTooLarge
    else
      match allocUpTo bm SIMPLEFS_MAX_BLOCKS_PER_EXTENT with
      | none => .error .NoSpace
      | some r => .ok (index ++ [⟨new_logical, r.2.1, r.1, 0⟩], r.2.2, r.1)

/-- The length-bound invariant of spec section 3: every extent in the index
has a length of 1..8 blocks. -/
def extLenInv (index : List simplefs_extent) : Prop :=
  ∀ e ∈ index, 1 ≤ e.ee_len ∧ e.ee_len ≤ SIMPLEFS_MAX_BLOCKS_PER_EXTENT

/-- A `struct simplefs_sb_info` value, restricted to the on-disk counters
(simplefs.h lines 161-172). -/
structure simplefs_sb_info where
  magic : Nat
  nr_blocks : Nat
  nr_inodes : Nat
  nr_istore_blocks : Nat
  nr_ifree_blocks : Nat
  nr_bfree_blocks : Nat
  nr_free_inodes : Nat
  nr_free_blocks : Nat
deriving DecidableEq

/-- Mount-time superblock errors (spec section 7). -/
inductive SbError where
  | CorruptSuperblock
deriving DecidableEq

/-- Modelled from the spec: `simplefs_fill_super` is only declared in
src/simplefs.h (line 126); its defining source file is not in the repository.
Spec section 4.2: load block 0 and verify the magic; fail with
CorruptSuperblock on magic mismatch or when the stored block/inode totals
disagree with the derived bitmap sizes; otherwise accept the volume. -/
def simplefs_fill_super (sb : simplefs_sb_info)
    (derived_nr_blocks derived_nr_inodes : Nat) :
    Except SbError simplefs_sb_info :=
  if sb.magic ≠ SIMPLEFS_MAGIC then .error .CorruptSuperblock
  else if sb.nr_blocks ≠ derived_nr_blocks ∨ sb.nr_inodes ≠ derived_nr_inodes then
    .error .CorruptSuperblock
  else .ok sb

example : sizeof_simplefs_extent = 16 := by decide
example : sizeof_simplefs_inode = 72 := by decide
example : sizeof_simplefs_file = 264 := by decide
example : SIMPLEFS_MAX_EXTENTS = 255 := by decide
example : SIMPLEFS_FILES_PER_BLOCK = 15 := by decide
example : sizeofStruct simplefs_file_ei_block_fields = 4084 := by decide
example : sizeofStruct simplefs_dir_block_fields = 3964 := by decide
example : sizeofStruct simplefs_sb_info_fields = 48 := by decide

/-- The tail of a well-formed extent index is well-formed. -/
theorem wf_tail : ∀ (a : simplefs_extent) (l : List simplefs_extent),
    wellFormed (a :: l) → wellFormed l
  | _, [], _ => trivial
  | _, _ :: _, h => h.2

/-- In a well-formed index, every extent after the head starts at or after
the end of the head's logical range. -/
theorem wf_head_le : ∀ (a : simplefs_extent) (l : List simplefs_extent),
    wellFormed (a :: l) → ∀ e ∈ l, a.ee_block + a.ee_len ≤ e.ee_block
  | _, [], _, e, he => absurd he (List.not_mem_nil e)
  | a, b :: rest, h, e, he => by
    rcases List.mem_cons.mp he with rfl | her
    · exact h.1
    · have hb := wf_head_le b rest (wf_tail a (b :: rest) h) e her
      have hab := h.1
      omega

/-- If an extent of a well-formed index covers `iblock`, the search returns
that extent's mapping. -/
theorem search_found : ∀ (index : List simplefs_extent), wellFormed index →
    ∀ (iblock : Nat) (e : simplefs_extent), e ∈ index → covers e iblock →
    simplefs_ext_search index iblock = some (e.ee_start + (iblock - e.ee_block))
  | [], _, _, e, he, _ => absurd he (List.not_mem_nil e)
  | a :: l, hwf, iblock, e, he, hcov => by
    rcases List.mem_cons.mp he with rfl | hel
    · have hc : e.ee_block ≤ iblock ∧ iblock < e.ee_block + e.ee_len := hcov
      simp only [simplefs_ext_search, if_pos hc]
    · have hle := wf_head_le a l hwf e hel
      have h1 : e.ee_block ≤ iblock := hcov.1
      have hna : ¬ (a.ee_block ≤ iblock ∧ iblock < a.ee_block + a.ee_len) := by
        intro hcontra
        omega
      simp only [simplefs_ext_search, if_neg hna]
      exact search_found l (wf_tail a l hwf) iblock e hel hcov

/-- If no extent covers `iblock`, the search returns `none`. -/
theorem search_not_found : ∀ (index : List simplefs_extent) (iblock : Nat),
    (∀ e ∈ index, ¬ covers e iblock) → simplefs_ext_search index iblock = none
  | [], _, _ => rfl
  | a :: l, iblock, h => by
    have hna : ¬ (a.ee_block ≤ iblock ∧ iblock < a.ee_block + a.ee_len) :=
      h a (List.mem_cons_self a l)
    simp only [simplefs_ext_search, if_neg hna]
    exact search_not_found l iblock (fun e he => h e (List.mem_cons_of_mem a he))

/-- A successful `allocUpTo` returns a length between 1 and the request. -/
theorem allocUpTo_len_bounds (bm : List Bool) :
    ∀ (n : Nat) (t : Nat × Nat × List Bool),
      allocUpTo bm n = some t → 1 ≤ t.2.1 ∧ t.2.1 ≤ n
  | 0, t, h => by simp [allocUpTo] at h
  | n + 1, t, h => by
    rw [allocUpTo] at h
    cases halloc : allocate_blocks bm (n + 1) with
    | some r =>
      rw [halloc] at h
      cases h
      simp
    | none =>
      rw [halloc] at h
      have hb := allocUpTo_len_bounds bm n t h
      omega

/-- C1: with block size 4096 and max blocks per extent 8, the extent-index
capacity `SIMPLEFS_MAX_EXTENTS` equals `(4096 - 4) / 16 = 255`, and the
maximum file size `SIMPLEFS_MAX_FILESIZE` equals
`8 * 4096 * 255 = 8355840` bytes. -/
theorem simplefs_c1 :
    SIMPLEFS_MAX_EXTENTS = (4096 - 4) / 16 ∧
    SIMPLEFS_MAX_EXTENTS = 255 ∧
    SIMPLEFS_MAX_FILESIZE = 8 * 4096 * 255 ∧
    SIMPLEFS_MAX_FILESIZE = 8355840 := by
  decide

/-- C2: for every well-formed (sorted, non-overlapping) extent index and
every logical block, `simplefs_ext_search` returns
`ee_start + (iblock - ee_block)` of the extent covering `iblock` (which,
well-formedness making coverage unique, is the first match of the in-order
scan), and `none` (NotFound) when no extent covers `iblock`. -/
theorem simplefs_c2 (index : List simplefs_extent) (hwf : wellFormed index)
    (iblock : Nat) :
    (∀ e ∈ index, covers e iblock →
        simplefs_ext_search index iblock =
          some (e.ee_start + (iblock - e.ee_block))) ∧
    ((∀ e ∈ index, ¬ covers e iblock) →
        simplefs_ext_search index iblock = none) :=
  ⟨fun e he hc => search_found index hwf iblock e he hc,
   fun h => search_not_found index iblock h⟩

/-- C2 witness: on the concrete well-formed index
`[(0,2,10), (4,3,20)]`, logical block 5 is covered by the second extent and
maps to physical block `20 + (5 - 4) = 21`. -/
theorem simplefs_c2_witness :
    simplefs_ext_search [⟨0, 2, 10, 0⟩, ⟨4, 3, 20, 0⟩] 5 = some 21 := by
  have h := (simplefs_c2 [⟨0, 2, 10, 0⟩, ⟨4, 3, 20, 0⟩]
      ⟨by decide, trivial⟩ 5).1 ⟨4, 3, 20, 0⟩ (by simp) ⟨by decide, by decide⟩
  exact h.trans (by decide)

/-- C3 counterexample: the claim's quantitative content is false on the
declared C structs: `sizeof(struct simplefs_file)` is 264, not 263 (the
263 field bytes are padded to a multiple of the 4-byte alignment), and the
entry array does not fill the remainder of the 4096-byte block
(4 + 15 * 264 = 3964, leaving 132 bytes unused). -/
theorem simplefs_c3_counterexample :
    ¬ (sizeof_simplefs_file = 263 ∧
       4 + SIMPLEFS_FILES_PER_BLOCK * sizeof_simplefs_file =
         SIMPLEFS_BLOCK_SIZE) := by
  decide

/-- C3 amended: a directory block is a 4-byte entry-count field followed by
an array of directory-entry records; each record holds a 4-byte inode
number at offset 0, a 4-byte block-usage counter at offset 4 and a 255-byte
filename at offset 8, padded by C alignment to a 264-byte record; the array
holds the 15 records that fit in the remaining 4092 bytes, so the block
occupies 3964 of its 4096 bytes. -/
theorem simplefs_c3_amended :
    structOffsets simplefs_file_fields = [0, 4, 8] ∧
    simplefs_file_fields.map CField.size = [4, 4, 255] ∧
    sizeof_simplefs_file = 264 ∧
    structOffsets simplefs_dir_block_fields = [0, 4] ∧
    SIMPLEFS_FILES_PER_BLOCK = 15 ∧
    4 + SIMPLEFS_FILES_PER_BLOCK * sizeof_simplefs_file = 3964 ∧
    sizeofStruct simplefs_dir_block_fields ≤ SIMPLEFS_BLOCK_SIZE := by
  decide

/-- C4: every on-disk record type fits within one 4096-byte block; in
particular the extent-index block (4084 bytes) and the directory block
(3964 bytes), as well as the inode record (72 bytes) and the superblock
record (48 bytes). -/
theorem simplefs_c4 :
    sizeofStruct simplefs_file_ei_block_fields ≤ SIMPLEFS_BLOCK_SIZE ∧
    sizeofStruct simplefs_dir_block_fields ≤ SIMPLEFS_BLOCK_SIZE ∧
    sizeof_simplefs_inode ≤ SIMPLEFS_BLOCK_SIZE ∧
    sizeofStruct simplefs_sb_info_fields ≤ SIMPLEFS_BLOCK_SIZE := by
  decide

/-- C5 counterexample: the superblock structure stored at block 0 does not
consist exactly of the eight fields the claim lists: its declared
(non-kernel) field list also contains the in-memory bitmap pointers
`ifree_bitmap` and `bfree_bitmap`. -/
theorem simplefs_c5_counterexample :
    ¬ (simplefs_sb_info_fields.map CField.name = spec_superblock_field_names) := by
  decide

/-- C5 amended: the superblock structure consists of the eight claimed
fields (magic, total block and inode counts, the three layout block counts,
the two free counters) followed by the two in-memory bitmap pointer fields
`ifree_bitmap` and `bfree_bitmap` (plus kernel-only journal members
conditionally compiled under `__KERNEL__`). -/
theorem simplefs_c5_amended :
    simplefs_sb_info_fields.map CField.name =
      spec_superblock_field_names ++ ["ifree_bitmap", "bfree_bitmap"] := by
  decide

/-- C6: mounting fails with CorruptSuperblock whenever the superblock's
magic field differs from `SIMPLEFS_MAGIC` (the constant written `0xDEADCELL`
in the header), and a volume is accepted only if the magic matches. -/
theorem simplefs_c6 (sb : simplefs_sb_info) (db di : Nat) :
    (sb.magic ≠ SIMPLEFS_MAGIC →
        simplefs_fill_super sb db di = .error .CorruptSuperblock) ∧
    (∀ r, simplefs_fill_super sb db di = .ok r → sb.magic = SIMPLEFS_MAGIC) := by
  constructor
  · intro h
    simp only [simplefs_fill_super, if_pos h]
  · intro r hr
    by_contra hm
    simp only [simplefs_fill_super, if_pos hm] at hr
    exact Except.noConfusion hr

/-- C6 witness: a superblock with magic 0 is rejected with
CorruptSuperblock. -/
theorem simplefs_c6_witness :
    simplefs_fill_super ⟨0, 1, 1, 1, 1, 1, 0, 0⟩ 1 1 =
      .error .CorruptSuperblock :=
  (simplefs_c6 ⟨0, 1, 1, 1, 1, 1, 0, 0⟩ 1 1).1 (by decide)

/-- C7: the length bound 1 ≤ ee_len ≤ 8 on every stored extent is an
invariant of extent growth: if every extent of the index satisfies it and
`simplefs_ext_grow` succeeds, every extent of the resulting index satisfies
it (the allocator returns between 1 and `SIMPLEFS_MAX_BLOCKS_PER_EXTENT`
contiguous blocks for the appended extent). -/
theorem simplefs_c7 (index : List simplefs_extent) (bm : List Bool) (lb : Nat)
    (hinv : extLenInv index) (index' : List simplefs_extent) (bm' : List Bool)
    (p : Nat)
    (hok : simplefs_ext_grow index bm lb = .ok (index', bm', p)) :
    extLenInv index' := by
  rw [simplefs_ext_grow] at hok
  cases hs : simplefs_ext_search index lb with
  | some q =>
    rw [hs] at hok
    cases hok
    exact hinv
  | none =>
    rw [hs] at hok
    by_cases hcap : SIMPLEFS_MAX_EXTENTS ≤ index.length
    · rw [if_pos hcap] at hok
      exact Except.noConfusion hok
    · rw [if_neg hcap] at hok
      cases ha : allocUpTo bm SIMPLEFS_MAX_BLOCKS_PER_EXTENT with
      | none =>
        rw [ha] at hok
        exact Except.noConfusion hok
      | some t =>
        rw [ha] at hok
        cases hok
        have hb := allocUpTo_len_bounds bm SIMPLEFS_MAX_BLOCKS_PER_EXTENT t ha
        intro e he
        rcases List.mem_append.mp he with hin | hnew
        · exact hinv e hin
        · rcases List.mem_singleton.mp hnew with rfl
          exact ⟨hb.1, hb.2⟩

/-- C7 witness: growing an empty index on a 2-block-free bitmap appends a
single extent of length 2, which satisfies the 1..8 length bound. -/
theorem simplefs_c7_witness : extLenInv [⟨0, 2, 0, 0⟩] :=
  simplefs_c7 [] [true, true] 0
    (fun e he => absurd he (List.not_mem_nil e))
    [⟨0, 2, 0, 0⟩] [false, false] 0 rfl

/-- C8: an extent index block is a 4-byte total-count field at offset 0
followed at offset 4 by a packed array of 16-byte extent records; each
record has the four 4-byte fields `ee_block`, `ee_len`, `ee_start`,
`nr_files` in that order at offsets 0, 4, 8, 12 (stride 16 = sum of the
field sizes, hence packed). -/
theorem simplefs_c8 :
    simplefs_extent_fields.map CField.name =
      ["ee_block", "ee_len", "ee_start", "nr_files"] ∧
    simplefs_extent_fields.map CField.size = [4, 4, 4, 4] ∧
    structOffsets simplefs_extent_fields = [0, 4, 8, 12] ∧
    sizeof_simplefs_extent = 16 ∧
    structOffsets simplefs_file_ei_block_fields = [0, 4] := by
  decide

/-- C9: an inode record is 72 bytes (ten 4-byte fields plus the 32-byte
inline buffer), and each inode-store block holds
`SIMPLEFS_INODES_PER_BLOCK = 4096 / 72 = 56` records. -/
theorem simplefs_c9 :
    sizeof_simplefs_inode = 72 ∧
    SIMPLEFS_INODES_PER_BLOCK = SIMPLEFS_BLOCK_SIZE / sizeof_simplefs_inode ∧
    SIMPLEFS_INODES_PER_BLOCK = 56 := by
  decide

/-- C10: C alignment pads the directory entry to 264 bytes, so each
directory block holds `SIMPLEFS_FILES_PER_BLOCK = 4096 / 264 = 15` entries,
and the maximum number of entries in one directory is
`SIMPLEFS_MAX_SUBFILES = 15 * 8 * 255 = 30600`. -/
theorem simplefs_c10 :
    sizeof_simplefs_file = 264 ∧
    SIMPLEFS_FILES_PER_BLOCK = SIMPLEFS_BLOCK_SIZE / sizeof_simplefs_file ∧
    SIMPLEFS_FILES_PER_BLOCK = 15 ∧
    SIMPLEFS_MAX_SUBFILES = 15 * 8 * 255 ∧
    SIMPLEFS_MAX_SUBFILES = 30600 := by
  decide
